import Mathlib

/-!
Shallow embedding of `setup-ffmpeg.js`, an FFmpeg setup script: it probes
whether `ffmpeg` is invocable, probes a local cache directory, asks the user
for confirmation, downloads a zip archive over HTTPS, extracts it, searches
the extracted tree for `ffmpeg.exe`, and prints PATH guidance.

The embedding models the filesystem as inductive entry trees, HTTP and child
process outcomes as explicit data, and each stage of the script as a total
function from those outcomes to its result together with the filesystem
effects and an event trace.
-/

namespace SetupFfmpeg

/-- Models `path.join` for the two-argument uses in the script, with a fixed
separator. -/
def pathJoin (a b : String) : String := a ++ "/" ++ b

/-- Models `__dirname`, the directory of the script. -/
def scriptDir : String := "__dirname"

/-- `downloadPath = path.join(__dirname, 'ffmpeg-download.zip')`. -/
def downloadPath : String := pathJoin scriptDir "ffmpeg-download.zip"

/-- `ffmpegDir = path.join(__dirname, 'ffmpeg')`. -/
def ffmpegDir : String := pathJoin scriptDir "ffmpeg"

/-- A directory listing entry: a plain file or a subdirectory with its own
listing, as observed through `fs.readdirSync` plus `fs.statSync`. -/
inductive Entry where
  | file (name : String)
  | dir (name : String) (children : List Entry)
deriving Repr

/-- The name of an entry, regardless of kind. -/
def entryName : Entry → String
  | .file n => n
  | .dir n _ => n

/-- Outcome of the `exec('ffmpeg -version', cb)` child process: it exited
with a code, or it could not be spawned at all. -/
inductive ExecOutcome where
  | exited (code : Nat)
  | spawnFailed
deriving Repr, DecidableEq

/-- Whether the `exec` callback receives a non-null `error` argument: it does
exactly when the child failed to spawn or exited non-zero. -/
def execFails : ExecOutcome → Bool
  | .exited 0 => false
  | .exited _ => true
  | .spawnFailed => true

/-- `checkFfmpeg()`: resolves `false` when the exec callback got an error,
`true` otherwise. Both callback branches call `resolve`, never `reject`, so
the model always returns `.ok`. -/
def checkFfmpeg (o : ExecOutcome) : Except String Bool :=
  if execFails o then .ok false else .ok true

/-- Transport-level outcome of `https.get(ffmpegUrl, ...)`: either a response
arrived with some status code, or the request emitted an `error` event. -/
inductive HttpOutcome where
  | response (statusCode : Nat)
  | connError (msg : String)
deriving Repr, DecidableEq

/-- State of the destination file `downloadPath` after the download stage:
whether a file is present there and whether its write stream was closed. -/
structure DlFs where
  destFilePresent : Bool
  destFileClosed : Bool
deriving Repr, DecidableEq

/-- The message of the error built on a non-200 status:
`Failed to download FFmpeg: ${response.statusCode}`. -/
def downloadErrorMsg (status : Nat) : String :=
  "Failed to download FFmpeg: " ++ toString status

/-- `downloadFfmpeg()`. The write stream (and hence the destination file) is
created first. A response with status other than 200 rejects with
`downloadErrorMsg` and returns without touching the file. A 200 response is
piped to the file, which is closed on finish. An `error` event on the request
runs `fs.unlink(downloadPath, () => \x7b\x7d)` (best effort: the callback
ignores any unlink failure, modelled by `unlinkOk`) and rejects with the
error. -/
def downloadFfmpeg (http : HttpOutcome) (unlinkOk : Bool) :
    Except String Unit × DlFs :=
  match http with
  | .response status =>
      if status != 200 then
        (.error (downloadErrorMsg status), ⟨true, false⟩)
      else
        (.ok (), ⟨true, true⟩)
  | .connError msg =>
      (.error msg, ⟨!unlinkOk, false⟩)

/-- Models `fs.existsSync` of a relative component path resolved against a
directory listing: each component must name an entry, descending through
directories, and only the last component may be a plain file (any entry kind
is accepted for the last component, as `existsSync` does). -/
def existsSyncPath (es : List Entry) : List String → Bool
  | [] => true
  | c :: cs =>
      es.any fun e =>
        match e with
        | .file n => n == c && cs.isEmpty
        | .dir n children => n == c && existsSyncPath children cs

/-- The fixed cache path `path.join(ffmpegDir, 'bin', 'ffmpeg.exe')`. -/
def localCachePath : String := pathJoin (pathJoin ffmpegDir "bin") "ffmpeg.exe"

/-- The local-cache probe inlined in `main` (lines 147-152): the filesystem
state is the listing of `ffmpegDir` (`none` when that directory is absent);
the probe is `fs.existsSync(localCachePath)` and, on a hit, the exact path
`localCachePath` that `main` then passes to `addToPath`. It performs no
writes. -/
def cacheProbe (fst : Option (List Entry)) : Option String :=
  match fst with
  | none => none
  | some es =>
      if existsSyncPath es ["bin", "ffmpeg.exe"] then some localCachePath
      else none

/-- `findFfmpegExePath(dir)`: iterate over the listing in order; for a
directory named `bin` whose listing has an entry named `ffmpeg.exe`, return
`bin/ffmpeg.exe`; otherwise recurse into the directory, and fall through to
the remaining entries when the recursion finds nothing; a non-directory entry
named `ffmpeg.exe` is returned directly; `null` (here `none`) when the loop
completes. The listing order of each directory is the order of the `List`. -/
def findFfmpegExePath (dirPath : String) (items : List Entry) : Option String :=
  match items with
  | [] => none
  | Entry.file name :: rest =>
      if name == "ffmpeg.exe" then some (pathJoin dirPath name)
      else findFfmpegExePath dirPath rest
  | Entry.dir name children :: rest =>
      if name == "bin" && children.any (fun e => entryName e == "ffmpeg.exe") then
        some (pathJoin (pathJoin dirPath name) "ffmpeg.exe")
      else
        match findFfmpegExePath (pathJoin dirPath name) children with
        | some p => some p
        | none => findFfmpegExePath dirPath rest

/-- Whether a listing contains anything `findFfmpegExePath` can return: a
non-directory entry named `ffmpeg.exe` at any depth, or a directory named
`bin` at any depth whose listing has an entry named `ffmpeg.exe`. -/
def hasMatch : List Entry → Bool
  | [] => false
  | Entry.file name :: rest => name == "ffmpeg.exe" || hasMatch rest
  | Entry.dir name children :: rest =>
      (name == "bin" && children.any (fun e => entryName e == "ffmpeg.exe"))
      || hasMatch children || hasMatch rest

/-- Whether any entry (file or directory) with the given name occurs anywhere
in the tree. -/
def containsName (s : String) : List Entry → Bool
  | [] => false
  | Entry.file n :: rest => n == s || containsName s rest
  | Entry.dir n children :: rest =>
      n == s || containsName s children || containsName s rest

/-- Events of the extraction stage, in chronological order: creating the
install root, the `decompress` call completing, `fs.unlinkSync(downloadPath)`
succeeding, the call to `findFfmpegExePath`, a `console.error` line. The
script has no operation that deletes the extracted tree, so no constructor
for such an event is ever emitted. -/
inductive ExEv where
  | mkdirInstallRoot
  | decompressDone
  | deleteArchive
  | searchExe
  | logError (msg : String)
  | deleteTree
deriving Repr, DecidableEq

/-- Filesystem outcome of the extraction stage: whether the downloaded
archive at `downloadPath` is still present, and whether extracted contents
are present under `ffmpegDir`. -/
structure ExtractFs where
  archivePresent : Bool
  treePresent : Bool
deriving Repr, DecidableEq

/-- The `console.error` prefix in the catch block of `extractFfmpeg`. -/
def extractErrMsg (e : String) : String := "Error extracting FFmpeg: " ++ e

/-- The error message raised when the search finds nothing. -/
def notFoundMsg : String := "Could not find ffmpeg.exe in the extracted files"

/-- `extractFfmpeg()`: ensure `ffmpegDir` exists, run `decompress` (outcome
`dec`: the listing extracted into `ffmpegDir`, or a failure), then
`fs.unlinkSync(downloadPath)` (outcome `unlink`), then `findFfmpegExePath`;
a `none` search result becomes a thrown `notFoundMsg` error. The catch block
logs `extractErrMsg` and rethrows. Returns the stage result, the filesystem
outcome, and the event trace. -/
def extractFfmpeg (dirExists : Bool) (dec : Except String (List Entry))
    (unlink : Except String Unit) :
    Except String String × ExtractFs × List ExEv :=
  let pre : List ExEv := if dirExists then [] else [.mkdirInstallRoot]
  match dec with
  | .error e =>
      (.error e, ⟨true, false⟩, pre ++ [.logError (extractErrMsg e)])
  | .ok entries =>
      match unlink with
      | .error e =>
          (.error e, ⟨true, true⟩,
            pre ++ [.decompressDone, .logError (extractErrMsg e)])
      | .ok _ =>
          match findFfmpegExePath ffmpegDir entries with
          | some p =>
              (.ok p, ⟨false, true⟩,
                pre ++ [.decompressDone, .deleteArchive, .searchExe])
          | none =>
              (.error notFoundMsg, ⟨false, true⟩,
                pre ++ [.decompressDone, .deleteArchive, .searchExe,
                        .logError (extractErrMsg notFoundMsg)])

/-- The five stages of `main`, plus the guidance output of `addToPath`. -/
inductive Stage where
  | availabilityCheck
  | localCacheCheck
  | confirmation
  | download
  | extractSearch
  | guidance
deriving Repr, DecidableEq

/-- Result of one run of `main`: the stages executed in order, the number of
times the catch block printed the limited-quality warning line, and the error
it caught, if any. -/
structure MainResult where
  stages : List Stage
  warningCount : Nat
  caught : Option String
deriving Repr, DecidableEq

/-- All external outcomes one run of the script can observe: the probe child
process, the listing of `ffmpegDir` (`none` when absent) for the cache check,
the HTTP transport, the best-effort unlink in the download error handler,
whether the install root already exists, the `decompress` outcome, and the
`unlinkSync` outcome of the archive cleanup. -/
structure World where
  exec : ExecOutcome
  cacheFs : Option (List Entry)
  http : HttpOutcome
  unlinkOnErrorOk : Bool
  installRootExists : Bool
  decompressResult : Except String (List Entry)
  unlinkArchive : Except String Unit

/-- `main()`: availability check; on miss, cache check; on miss, the
confirmation gate, then download, then extract-and-search, then `addToPath`
guidance. Any error thrown inside the try block lands in the single catch
block, which prints one warning. -/
def main (w : World) : MainResult :=
  match checkFfmpeg w.exec with
  | .error e => ⟨[.availabilityCheck], 1, some e⟩
  | .ok true => ⟨[.availabilityCheck], 0, none⟩
  | .ok false =>
      match cacheProbe w.cacheFs with
      | some _ =>
          ⟨[.availabilityCheck, .localCacheCheck, .guidance], 0, none⟩
      | none =>
          match (downloadFfmpeg w.http w.unlinkOnErrorOk).fst with
          | .error e =>
              ⟨[.availabilityCheck, .localCacheCheck, .confirmation,
                .download], 1, some e⟩
          | .ok _ =>
              match (extractFfmpeg w.installRootExists w.decompressResult
                  w.unlinkArchive).fst with
              | .error e =>
                  ⟨[.availabilityCheck, .localCacheCheck, .confirmation,
                    .download, .extractSearch], 1, some e⟩
              | .ok _ =>
                  ⟨[.availabilityCheck, .localCacheCheck, .confirmation,
                    .download, .extractSearch, .guidance], 0, none⟩

/-- Outcome of the whole script: the `main` result, then the `finally` block
that always prints the press-any-key prompt and, on the next input event,
calls `process.exit(0)`. -/
structure RunOutcome where
  mainResult : MainResult
  pressAnyKeyPrompt : Bool
  exitCode : Nat
deriving Repr, DecidableEq

/-- `main().catch(console.error).finally(...)`: `main` never rejects (its
body is one try-catch), the prompt is always printed, and the only exit call
in the script is `process.exit(0)`. -/
def runScript (w : World) : RunOutcome :=
  ⟨main w, true, 0⟩

/-- A path the search can legitimately return, rooted at directory `p` with
listing `items`: a non-directory entry named `ffmpeg.exe` listed in a
reachable directory, or `d/bin/ffmpeg.exe` for a reachable directory `d`
whose listing has a directory `bin` containing an entry named `ffmpeg.exe`. -/
inductive Occurs : String → List Entry → String → Prop where
  | file_here {p : String} {items : List Entry}
      (hm : Entry.file "ffmpeg.exe" ∈ items) :
      Occurs p items (pathJoin p "ffmpeg.exe")
  | bin_here {p : String} {items children : List Entry}
      (hm : Entry.dir "bin" children ∈ items)
      (he : ∃ e ∈ children, entryName e = "ffmpeg.exe") :
      Occurs p items (pathJoin (pathJoin p "bin") "ffmpeg.exe")
  | deeper {p n : String} {items children : List Entry} {q : String}
      (hm : Entry.dir n children ∈ items)
      (ho : Occurs (pathJoin p n) children q) :
      Occurs p items q

/-- A plain file named `ffmpeg.exe` at path `q`, nested `k` directory levels
below the root listing. -/
inductive FileOccursD : Nat → String → List Entry → String → Prop where
  | here {p : String} {items : List Entry}
      (hm : Entry.file "ffmpeg.exe" ∈ items) :
      FileOccursD 0 p items (pathJoin p "ffmpeg.exe")
  | deeper {k : Nat} {p n : String} {items children : List Entry} {q : String}
      (hm : Entry.dir n children ∈ items)
      (ho : FileOccursD k (pathJoin p n) children q) :
      FileOccursD (k + 1) p items q


/-- Weakening: an occurrence in the tail listing is an occurrence in the
whole listing. -/
theorem Occurs.cons {p : String} {e : Entry} {rest : List Entry} {q : String}
    (h : Occurs p rest q) : Occurs p (e :: rest) q := by
  cases h with
  | file_here hm => exact .file_here (List.mem_cons_of_mem _ hm)
  | bin_here hm he => exact .bin_here (List.mem_cons_of_mem _ hm) he
  | deeper hm ho => exact .deeper (List.mem_cons_of_mem _ hm) ho

/-- Soundness of the search: a returned path is a legitimate occurrence. -/
theorem findFfmpegExePath_occurs {dirPath : String} {items : List Entry}
    {q : String} (h : findFfmpegExePath dirPath items = some q) :
    Occurs dirPath items q := by
  induction items using hasMatch.induct generalizing dirPath q with
  | case1 => simp [findFfmpegExePath] at h
  | case2 name rest ih =>
      rw [findFfmpegExePath] at h
      by_cases hn : name == "ffmpeg.exe"
      · rw [if_pos hn] at h
        obtain rfl : pathJoin dirPath name = q := by simpa using h
        obtain rfl : name = "ffmpeg.exe" := by simpa using hn
        exact .file_here (List.mem_cons_self _ _)
      · rw [if_neg hn] at h
        exact (ih h).cons
  | case3 name children rest ihc ihr =>
      rw [findFfmpegExePath] at h
      by_cases hb : (name == "bin"
          && children.any fun e => entryName e == "ffmpeg.exe") = true
      · rw [if_pos hb] at h
        obtain ⟨hn, ha⟩ := Bool.and_eq_true_iff.mp hb
        obtain rfl : name = "bin" := by simpa using hn
        obtain rfl : pathJoin (pathJoin dirPath "bin") "ffmpeg.exe" = q := by
          simpa using h
        refine .bin_here (List.mem_cons_self _ _) ?_
        obtain ⟨e, he, hee⟩ := List.any_eq_true.mp ha
        exact ⟨e, he, by simpa using hee⟩
      · rw [if_neg hb] at h
        cases hf : findFfmpegExePath (pathJoin dirPath name) children with
        | some p =>
            rw [hf] at h
            obtain rfl : p = q := by simpa using h
            exact .deeper (List.mem_cons_self _ _) (ihc hf)
        | none =>
            rw [hf] at h
            exact (ihr h).cons

/-- The search succeeds exactly when the listing has a match: nothing is
pruned, and a completed traversal means no match exists anywhere. -/
theorem findFfmpegExePath_isSome_eq_hasMatch (dirPath : String)
    (items : List Entry) :
    (findFfmpegExePath dirPath items).isSome = hasMatch items := by
  induction items using hasMatch.induct generalizing dirPath with
  | case1 => simp [findFfmpegExePath, hasMatch]
  | case2 name rest ih =>
      rw [findFfmpegExePath, hasMatch]
      by_cases hn : name == "ffmpeg.exe"
      · simp [hn]
      · simp only [Bool.not_eq_true] at hn
        simp [hn, ih]
  | case3 name children rest ihc ihr =>
      rw [findFfmpegExePath, hasMatch]
      by_cases hb : (name == "bin"
          && children.any fun e => entryName e == "ffmpeg.exe") = true
      · simp [hb]
      · simp only [Bool.not_eq_true] at hb
        rw [hb]
        cases hf : findFfmpegExePath (pathJoin dirPath name) children with
        | some p =>
            have : hasMatch children = true := by
              rw [← ihc (pathJoin dirPath name), hf]
              rfl
            simp [this]
        | none =>
            have hc : hasMatch children = false := by
              rw [← ihc (pathJoin dirPath name), hf]
              rfl
            simp [hc, ihr]

/-- A listing that lists `ffmpeg.exe` as a plain file has a match. -/
theorem hasMatch_of_mem_file {items : List Entry}
    (h : Entry.file "ffmpeg.exe" ∈ items) : hasMatch items = true := by
  induction items with
  | nil => cases h
  | cons e rest ih =>
      cases List.mem_cons.mp h with
      | inl he => rw [← he, hasMatch]; simp
      | inr ht =>
          cases e with
          | file n => rw [hasMatch]; simp [ih ht]
          | dir n cs => rw [hasMatch]; simp [ih ht]

/-- A listing with a subdirectory whose listing has a match has a match. -/
theorem hasMatch_of_mem_dir {items children : List Entry} {n : String}
    (h : Entry.dir n children ∈ items) (hc : hasMatch children = true) :
    hasMatch items = true := by
  induction items with
  | nil => cases h
  | cons e rest ih =>
      cases List.mem_cons.mp h with
      | inl he => rw [← he, hasMatch]; simp [hc]
      | inr ht =>
          cases e with
          | file m => rw [hasMatch]; simp [ih ht]
          | dir m cs => rw [hasMatch]; simp [ih ht]

/-- A nested plain-file occurrence of `ffmpeg.exe` gives the listing a
match. -/
theorem hasMatch_of_fileOccursD {k : Nat} {p : String} {items : List Entry}
    {q : String} (h : FileOccursD k p items q) : hasMatch items = true := by
  induction h with
  | here hm => exact hasMatch_of_mem_file hm
  | deeper hm _ ih => exact hasMatch_of_mem_dir hm ih

/-- When no entry anywhere is named `s`, no entry of the top listing is. -/
theorem any_entryName_eq_false_of_not_containsName {s : String}
    {es : List Entry} (h : containsName s es = false) :
    (es.any fun e => entryName e == s) = false := by
  induction es with
  | nil => rfl
  | cons e cs ih =>
      cases e with
      | file m =>
          rw [containsName] at h
          simp only [Bool.or_eq_false_iff] at h
          rw [List.any_cons]
          simp only [Bool.or_eq_false_iff]
          exact ⟨by simp [entryName, h.1], ih h.2⟩
      | dir m ds =>
          rw [containsName] at h
          simp only [Bool.or_eq_false_iff] at h
          rw [List.any_cons]
          simp only [Bool.or_eq_false_iff]
          exact ⟨by simp [entryName, h.1.1], ih h.2⟩

/-- A tree with no entry named `ffmpeg.exe` anywhere has no match. -/
theorem hasMatch_eq_false_of_not_containsName {items : List Entry}
    (h : containsName "ffmpeg.exe" items = false) : hasMatch items = false := by
  induction items using hasMatch.induct with
  | case1 => rw [hasMatch]
  | case2 name rest ih =>
      rw [containsName] at h
      rw [hasMatch]
      simp only [Bool.or_eq_false_iff] at h ⊢
      exact ⟨h.1, ih h.2⟩
  | case3 name children rest ihc ihr =>
      rw [containsName] at h
      rw [hasMatch]
      simp only [Bool.or_eq_false_iff] at h ⊢
      obtain ⟨⟨hn, hc⟩, hr⟩ := h
      refine ⟨⟨?_, ihc hc⟩, ihr hr⟩
      simp [any_entryName_eq_false_of_not_containsName hc]

/-- Any occurrence path ends in the component `ffmpeg.exe`. -/
theorem Occurs.endsWithExe {p : String} {items : List Entry} {q : String}
    (h : Occurs p items q) : ∃ d, q = pathJoin d "ffmpeg.exe" := by
  induction h with
  | file_here _ => exact ⟨_, rfl⟩
  | bin_here _ _ => exact ⟨_, rfl⟩
  | deeper _ _ ih => exact ih

/-- Resolving the single component `ffmpeg.exe` is an entry-name test. -/
theorem existsSyncPath_single (cs : List Entry) :
    existsSyncPath cs ["ffmpeg.exe"]
      = cs.any fun e => entryName e == "ffmpeg.exe" := by
  rw [existsSyncPath]
  induction cs with
  | nil => rfl
  | cons e rest ih =>
      rw [List.any_cons, List.any_cons, ih]
      cases e with
      | file n => simp [entryName]
      | dir n children => simp [entryName, existsSyncPath]

/-- The cache test `existsSync(ffmpegDir/bin/ffmpeg.exe)` holds exactly when
the listing of `ffmpegDir` has a directory `bin` with an entry named
`ffmpeg.exe`. -/
theorem existsSyncPath_bin_iff (es : List Entry) :
    existsSyncPath es ["bin", "ffmpeg.exe"] = true ↔
      ∃ cs, Entry.dir "bin" cs ∈ es ∧ ∃ e ∈ cs, entryName e = "ffmpeg.exe" := by
  rw [existsSyncPath, List.any_eq_true]
  constructor
  · rintro ⟨e, he, hp⟩
    cases e with
    | file n => simp at hp
    | dir n children =>
        simp only [Bool.and_eq_true, beq_iff_eq] at hp
        obtain ⟨rfl, hrest⟩ := hp
        rw [existsSyncPath_single, List.any_eq_true] at hrest
        obtain ⟨e, hec, hee⟩ := hrest
        exact ⟨children, he, e, hec, by simpa using hee⟩
  · rintro ⟨cs, hmem, e, hec, hee⟩
    refine ⟨Entry.dir "bin" cs, hmem, ?_⟩
    simp only [Bool.and_eq_true, beq_iff_eq]
    refine ⟨trivial, ?_⟩
    rw [existsSyncPath_single, List.any_eq_true]
    exact ⟨e, hec, by simpa using hee⟩

/-- Claim C5: the availability probe never throws; a probe child process that
exits non-zero or fails to spawn yields `false`, and a zero exit yields
`true`. The model always resolves (`.ok`), mirroring that both branches of
the exec callback call `resolve`. -/
theorem spec_C5_probe_never_throws :
    (∀ c, c ≠ 0 → checkFfmpeg (.exited c) = .ok false)
    ∧ checkFfmpeg .spawnFailed = .ok false
    ∧ checkFfmpeg (.exited 0) = .ok true
    ∧ (∀ o, ∃ b, checkFfmpeg o = .ok b) := by
  refine ⟨?_, rfl, rfl, ?_⟩
  · intro c hc
    cases c with
    | zero => exact absurd rfl hc
    | succ n => rfl
  · intro o
    unfold checkFfmpeg
    cases execFails o <;> exact ⟨_, rfl⟩

/-- Witness for C5 at the concrete exit code 2. -/
theorem spec_C5_probe_never_throws_witness :
    checkFfmpeg (.exited 2) = .ok false :=
  spec_C5_probe_never_throws.1 2 (by decide)

/-- Claim C6: when an entry exists at `ffmpegDir/bin/ffmpeg.exe` the cache
probe returns exactly `localCachePath`; when the path is absent (including
when `ffmpegDir` itself is absent) it returns `none`; its result is always
one of these two definite values, and the model performs no writes. -/
theorem spec_C6_cache_probe (fst : Option (List Entry)) :
    (∀ es cs e, fst = some es → Entry.dir "bin" cs ∈ es → e ∈ cs →
        entryName e = "ffmpeg.exe" → cacheProbe fst = some localCachePath)
    ∧ (cacheProbe fst = some localCachePath ∨ cacheProbe fst = none)
    ∧ (fst = none → cacheProbe fst = none)
    ∧ (∀ es, fst = some es →
        (¬ ∃ cs, Entry.dir "bin" cs ∈ es ∧ ∃ e ∈ cs, entryName e = "ffmpeg.exe") →
        cacheProbe fst = none) := by
  refine ⟨?_, ?_, ?_, ?_⟩
  · rintro es cs e rfl hmem hec hee
    simp only [cacheProbe]
    rw [if_pos ((existsSyncPath_bin_iff es).mpr ⟨cs, hmem, e, hec, hee⟩)]
  · cases fst with
    | none => exact Or.inr rfl
    | some es =>
        simp only [cacheProbe]
        by_cases hx : existsSyncPath es ["bin", "ffmpeg.exe"] = true
        · rw [if_pos hx]; exact Or.inl rfl
        · rw [if_neg hx]; exact Or.inr rfl
  · rintro rfl; rfl
  · rintro es rfl hno
    simp only [cacheProbe]
    rw [if_neg]
    intro hx
    exact hno ((existsSyncPath_bin_iff es).mp hx)

/-- Witness for C6 at a concrete cache hit and a concrete miss. -/
theorem spec_C6_cache_probe_witness :
    cacheProbe (some [Entry.dir "bin" [Entry.file "ffmpeg.exe"]])
        = some localCachePath
    ∧ cacheProbe (some [Entry.file "readme.txt"]) = none :=
  ⟨(spec_C6_cache_probe _).1 [Entry.dir "bin" [Entry.file "ffmpeg.exe"]]
      [Entry.file "ffmpeg.exe"] (Entry.file "ffmpeg.exe") rfl
      (List.mem_singleton.mpr rfl) (List.mem_singleton.mpr rfl) rfl,
    (spec_C6_cache_probe _).2.2.2 [Entry.file "readme.txt"] rfl
      (by rintro ⟨cs, hmem, -⟩; simp at hmem)⟩

/-- Claim C8: for every finite tree (all `Entry` trees are finite, and the
embedding is a total function, so the search terminates and is a
deterministic function of the listing order), the search is exhaustive: it
succeeds exactly when a match exists anywhere in the tree, so a `none`
result means no subdirectory was skipped. -/
theorem spec_C8_search_exhaustive :
    ∀ dirPath items,
      (findFfmpegExePath dirPath items).isSome = hasMatch items :=
  findFfmpegExePath_isSome_eq_hasMatch

/-- Claim C10: a non-null search result ends in the component `ffmpeg.exe`
and designates a real occurrence in the traversed tree: a non-directory
entry named `ffmpeg.exe` listed in a reachable directory, or
`d/bin/ffmpeg.exe` for a reachable directory `d` whose `bin` subdirectory
lists an entry named `ffmpeg.exe`. -/
theorem spec_C10_search_soundness :
    ∀ dirPath items q, findFfmpegExePath dirPath items = some q →
      (∃ d, q = pathJoin d "ffmpeg.exe") ∧ Occurs dirPath items q :=
  fun _ _ _ h =>
    ⟨(findFfmpegExePath_occurs h).endsWithExe, findFfmpegExePath_occurs h⟩

/-- Witness for C10 at a concrete two-level tree. -/
theorem spec_C10_search_soundness_witness :
    (∃ d, "R/a/ffmpeg.exe" = pathJoin d "ffmpeg.exe")
    ∧ Occurs "R" [Entry.dir "a" [Entry.file "ffmpeg.exe"]] "R/a/ffmpeg.exe" :=
  spec_C10_search_soundness "R" [Entry.dir "a" [Entry.file "ffmpeg.exe"]]
    "R/a/ffmpeg.exe"
    (by simp [findFfmpegExePath, pathJoin])

/-- Counterexample to C1 as stated: on a status-404 response the download
stage rejects with an error containing the status code, but the destination
file created by the write stream is NOT deleted (the unlink is only in the
connection-error handler). -/
theorem spec_C1_counterexample :
    (downloadFfmpeg (.response 404) true).fst
        = .error "Failed to download FFmpeg: 404"
    ∧ (downloadFfmpeg (.response 404) true).snd.destFilePresent = true := by
  exact ⟨rfl, rfl⟩

/-- Claim C1 amended: on a connection error the destination file is deleted
best-effort before the error propagates (a failing unlink is ignored and
leaves the file behind, without affecting the rejection); on a non-200
status the raised error contains the status code, but the destination file
is not deleted and is left behind. -/
theorem spec_C1_transport_failure :
    (∀ status, status ≠ 200 → ∀ u,
        (downloadFfmpeg (.response status) u).fst
            = .error (downloadErrorMsg status)
        ∧ (∃ pre, downloadErrorMsg status = pre ++ toString status)
        ∧ (downloadFfmpeg (.response status) u).snd.destFilePresent = true)
    ∧ (∀ msg u,
        (downloadFfmpeg (.connError msg) u).fst = .error msg
        ∧ (downloadFfmpeg (.connError msg) u).snd.destFilePresent = !u) := by
  constructor
  · intro status h u
    have hb : (status != 200) = true := bne_iff_ne.mpr h
    refine ⟨?_, ⟨"Failed to download FFmpeg: ", rfl⟩, ?_⟩
    · simp only [downloadFfmpeg, hb, if_true]
    · simp only [downloadFfmpeg, hb, if_true]
  · intro msg u
    exact ⟨rfl, rfl⟩

/-- Witness for C1 amended at status 500 and a concrete connection error. -/
theorem spec_C1_transport_failure_witness :
    ((downloadFfmpeg (.response 500) true).fst
        = .error (downloadErrorMsg 500)
      ∧ (∃ pre, downloadErrorMsg 500 = pre ++ toString 500)
      ∧ (downloadFfmpeg (.response 500) true).snd.destFilePresent = true)
    ∧ ((downloadFfmpeg (.connError "socket hang up") false).fst
          = .error "socket hang up"
        ∧ (downloadFfmpeg (.connError "socket hang up") false).snd.destFilePresent
            = !false) :=
  ⟨spec_C1_transport_failure.1 500 (by decide) true,
    spec_C1_transport_failure.2 "socket hang up" false⟩

/-- Claim C3: whenever decompression and the archive unlink succeed, the
archive is gone and the extracted tree is present whether or not the search
finds the executable, the deletion event strictly precedes the search event,
and no run of the stage ever deletes the extracted tree. -/
theorem spec_C3_archive_removed_before_search :
    ∀ dirExists dec unlink,
      ExEv.deleteTree ∉ (extractFfmpeg dirExists dec unlink).snd.snd
      ∧ (∀ entries, dec = Except.ok entries → unlink = Except.ok () →
          (extractFfmpeg dirExists dec unlink).snd.fst.archivePresent = false
          ∧ (extractFfmpeg dirExists dec unlink).snd.fst.treePresent = true
          ∧ ∃ l1 l2, (extractFfmpeg dirExists dec unlink).snd.snd
              = l1 ++ ExEv.deleteArchive :: l2 ∧ ExEv.searchExe ∈ l2) := by
  intro dirExists dec unlink
  constructor
  · cases dec with
    | error e => cases dirExists <;> simp [extractFfmpeg]
    | ok entries =>
        cases unlink with
        | error e => cases dirExists <;> simp [extractFfmpeg]
        | ok u =>
            cases hf : findFfmpegExePath ffmpegDir entries with
            | some p => cases dirExists <;> simp [extractFfmpeg, hf]
            | none => cases dirExists <;> simp [extractFfmpeg, hf]
  · rintro entries rfl rfl
    cases hf : findFfmpegExePath ffmpegDir entries with
    | some p =>
        cases dirExists
        · refine ⟨?_, ?_, [ExEv.mkdirInstallRoot, ExEv.decompressDone],
            [ExEv.searchExe], ?_, ?_⟩ <;> simp [extractFfmpeg, hf]
        · refine ⟨?_, ?_, [ExEv.decompressDone], [ExEv.searchExe], ?_, ?_⟩
            <;> simp [extractFfmpeg, hf]
    | none =>
        cases dirExists
        · refine ⟨?_, ?_, [ExEv.mkdirInstallRoot, ExEv.decompressDone],
            [ExEv.searchExe, ExEv.logError (extractErrMsg notFoundMsg)],
            ?_, ?_⟩ <;> simp [extractFfmpeg, hf]
        · refine ⟨?_, ?_, [ExEv.decompressDone],
            [ExEv.searchExe, ExEv.logError (extractErrMsg notFoundMsg)],
            ?_, ?_⟩ <;> simp [extractFfmpeg, hf]

/-- Witness for C3 at a concrete successful extraction whose search fails. -/
theorem spec_C3_archive_removed_before_search_witness :
    ExEv.deleteTree
        ∉ (extractFfmpeg true (.ok [Entry.file "doc.txt"]) (.ok ())).snd.snd
    ∧ ((extractFfmpeg true (.ok [Entry.file "doc.txt"])
          (.ok ())).snd.fst.archivePresent = false
        ∧ (extractFfmpeg true (.ok [Entry.file "doc.txt"])
            (.ok ())).snd.fst.treePresent = true
        ∧ ∃ l1 l2, (extractFfmpeg true (.ok [Entry.file "doc.txt"])
              (.ok ())).snd.snd
            = l1 ++ ExEv.deleteArchive :: l2 ∧ ExEv.searchExe ∈ l2) :=
  ⟨(spec_C3_archive_removed_before_search true (.ok [Entry.file "doc.txt"])
      (.ok ())).1,
    (spec_C3_archive_removed_before_search true (.ok [Entry.file "doc.txt"])
      (.ok ())).2 [Entry.file "doc.txt"] rfl rfl⟩

/-- Counterexample to C9 as stated: when `unlinkSync` fails after a
successful decompression, the stage rethrows the failure and the executable
search never runs, so the run does not proceed through search and guidance;
at the orchestrator level the guidance stage is skipped. -/
theorem spec_C9_counterexample :
    (extractFfmpeg true (.ok [Entry.dir "bin" [Entry.file "ffmpeg.exe"]])
        (.error "EPERM")).fst = .error "EPERM"
    ∧ ExEv.searchExe
        ∉ (extractFfmpeg true (.ok [Entry.dir "bin" [Entry.file "ffmpeg.exe"]])
            (.error "EPERM")).snd.snd
    ∧ (extractFfmpeg true (.ok [Entry.dir "bin" [Entry.file "ffmpeg.exe"]])
        (.error "EPERM")).snd.fst.archivePresent = true
    ∧ Stage.guidance
        ∉ (main ⟨.spawnFailed, some [], .response 200, true, true,
            .ok [Entry.dir "bin" [Entry.file "ffmpeg.exe"]],
            .error "EPERM"⟩).stages := by
  refine ⟨rfl, ?_, rfl, ?_⟩
  · simp [extractFfmpeg]
  · simp [main, checkFfmpeg, execFails, cacheProbe, existsSyncPath,
      downloadFfmpeg, extractFfmpeg]

/-- Claim C9 amended: a failing archive unlink after successful extraction is
surfaced (the catch block logs it) but it is fatal to the extraction stage:
the error is rethrown, the search and guidance are skipped, and the run is
then rescued only by the top-level handler, which prints its warning while
the process still exits 0. -/
theorem spec_C9_unlink_failure_fatal_to_stage :
    ∀ dirExists entries e,
      (extractFfmpeg dirExists (.ok entries) (.error e)).fst = .error e
      ∧ ExEv.logError (extractErrMsg e)
          ∈ (extractFfmpeg dirExists (.ok entries) (.error e)).snd.snd
      ∧ ExEv.searchExe
          ∉ (extractFfmpeg dirExists (.ok entries) (.error e)).snd.snd
      ∧ (extractFfmpeg dirExists (.ok entries) (.error e)).snd.fst.archivePresent
          = true
      ∧ (∀ w : World, checkFfmpeg w.exec = .ok false →
          cacheProbe w.cacheFs = none →
          (downloadFfmpeg w.http w.unlinkOnErrorOk).fst = .ok () →
          w.decompressResult = .ok entries → w.unlinkArchive = .error e →
          (main w).warningCount = 1 ∧ (main w).caught = some e
          ∧ Stage.guidance ∉ (main w).stages
          ∧ (runScript w).exitCode = 0) := by
  intro dirExists entries e
  refine ⟨?_, ?_, ?_, ?_, ?_⟩
  · cases dirExists <;> rfl
  · cases dirExists <;> simp [extractFfmpeg]
  · cases dirExists <;> simp [extractFfmpeg]
  · cases dirExists <;> rfl
  · intro w h1 h2 h3 h4 h5
    have hex : (extractFfmpeg w.installRootExists w.decompressResult
        w.unlinkArchive).fst = .error e := by
      rw [h4, h5]
      cases w.installRootExists <;> rfl
    simp [main, runScript, h1, h2, h3, hex]

/-- Witness for C9 amended at a concrete world. -/
theorem spec_C9_unlink_failure_fatal_to_stage_witness :
    ((extractFfmpeg true (.ok ([] : List Entry)) (.error "EPERM")).fst
        = .error "EPERM"
      ∧ ExEv.logError (extractErrMsg "EPERM")
          ∈ (extractFfmpeg true (.ok ([] : List Entry))
              (.error "EPERM")).snd.snd
      ∧ ExEv.searchExe
          ∉ (extractFfmpeg true (.ok ([] : List Entry))
              (.error "EPERM")).snd.snd
      ∧ (extractFfmpeg true (.ok ([] : List Entry))
          (.error "EPERM")).snd.fst.archivePresent = true)
    ∧ ((main ⟨.spawnFailed, some [], .response 200, true, true, .ok [],
          .error "EPERM"⟩).warningCount = 1
        ∧ (main ⟨.spawnFailed, some [], .response 200, true, true, .ok [],
            .error "EPERM"⟩).caught = some "EPERM"
        ∧ Stage.guidance ∉ (main ⟨.spawnFailed, some [], .response 200, true,
            true, .ok [], .error "EPERM"⟩).stages
        ∧ (runScript ⟨.spawnFailed, some [], .response 200, true, true,
            .ok [], .error "EPERM"⟩).exitCode = 0) := by
  have h := spec_C9_unlink_failure_fatal_to_stage true [] "EPERM"
  exact ⟨⟨h.1, h.2.1, h.2.2.1, h.2.2.2.1⟩,
    h.2.2.2.2 ⟨.spawnFailed, some [], .response 200, true, true, .ok [],
        .error "EPERM"⟩ rfl (by simp [cacheProbe, existsSyncPath]) rfl rfl rfl⟩

/-- Claim C2: whenever the probe and cache checks miss and the download
stage fails, or the download succeeds and the extract-and-search stage
fails, the single top-level catch block fires (one caught error, exactly one
limited-quality warning), the press-any-key prompt is still reached, and the
process exits with code 0. -/
theorem spec_C2_warn_once_and_exit_zero :
    ∀ w : World, checkFfmpeg w.exec = .ok false →
      cacheProbe w.cacheFs = none →
      ((∃ e, (downloadFfmpeg w.http w.unlinkOnErrorOk).fst = .error e)
        ∨ ((downloadFfmpeg w.http w.unlinkOnErrorOk).fst = .ok ()
            ∧ ∃ e, (extractFfmpeg w.installRootExists w.decompressResult
                w.unlinkArchive).fst = .error e)) →
      (main w).warningCount = 1 ∧ (main w).caught.isSome = true
      ∧ (runScript w).pressAnyKeyPrompt = true
      ∧ (runScript w).exitCode = 0 := by
  intro w h1 h2 h3
  rcases h3 with ⟨e, he⟩ | ⟨hd, e, he⟩
  · simp [main, runScript, h1, h2, he]
  · simp [main, runScript, h1, h2, hd, he]

/-- Witness for C2 at a concrete world whose download gets a 404. -/
theorem spec_C2_warn_once_and_exit_zero_witness :
    (main ⟨.spawnFailed, some [], .response 404, true, true, .ok [],
        .ok ()⟩).warningCount = 1
    ∧ (main ⟨.spawnFailed, some [], .response 404, true, true, .ok [],
        .ok ()⟩).caught.isSome = true
    ∧ (runScript ⟨.spawnFailed, some [], .response 404, true, true, .ok [],
        .ok ()⟩).pressAnyKeyPrompt = true
    ∧ (runScript ⟨.spawnFailed, some [], .response 404, true, true, .ok [],
        .ok ()⟩).exitCode = 0 :=
  spec_C2_warn_once_and_exit_zero _ rfl (by simp [cacheProbe, existsSyncPath])
    (Or.inl ⟨"Failed to download FFmpeg: 404", rfl⟩)

/-- Shared helper: a tree without any entry named `ffmpeg.exe` makes the
search return `none`. -/
theorem findFfmpegExePath_eq_none_of_not_containsName {items : List Entry}
    (dirPath : String) (h : containsName "ffmpeg.exe" items = false) :
    findFfmpegExePath dirPath items = none := by
  have hm := hasMatch_eq_false_of_not_containsName h
  have hs := findFfmpegExePath_isSome_eq_hasMatch dirPath items
  rw [hm] at hs
  exact Option.not_isSome_iff_eq_none.mp (by simp [hs])

/-- Claim C4: the five stages run in strict order with short-circuiting: an
invocable probe leaves only the availability check; a cache hit leaves the
availability check, the cache check and the guidance; otherwise the
confirmation gate, download, extract-and-search and guidance run in that
order, each later stage only after the earlier ones succeeded. -/
theorem spec_C4_stage_order (w : World) :
    (w.exec = .exited 0 → (main w).stages = [Stage.availabilityCheck])
    ∧ (checkFfmpeg w.exec = .ok false → (cacheProbe w.cacheFs).isSome = true →
        (main w).stages
          = [Stage.availabilityCheck, Stage.localCacheCheck, Stage.guidance])
    ∧ (checkFfmpeg w.exec = .ok false → cacheProbe w.cacheFs = none →
        ((∀ e, (downloadFfmpeg w.http w.unlinkOnErrorOk).fst = .error e →
            (main w).stages = [Stage.availabilityCheck, Stage.localCacheCheck,
              Stage.confirmation, Stage.download])
          ∧ ((downloadFfmpeg w.http w.unlinkOnErrorOk).fst = .ok () →
              ∀ e, (extractFfmpeg w.installRootExists w.decompressResult
                  w.unlinkArchive).fst = .error e →
                (main w).stages = [Stage.availabilityCheck,
                  Stage.localCacheCheck, Stage.confirmation, Stage.download,
                  Stage.extractSearch])
          ∧ ((downloadFfmpeg w.http w.unlinkOnErrorOk).fst = .ok () →
              ∀ p, (extractFfmpeg w.installRootExists w.decompressResult
                  w.unlinkArchive).fst = .ok p →
                (main w).stages = [Stage.availabilityCheck,
                  Stage.localCacheCheck, Stage.confirmation, Stage.download,
                  Stage.extractSearch, Stage.guidance]))) := by
  refine ⟨?_, ?_, ?_⟩
  · intro h
    have hc : checkFfmpeg w.exec = .ok true := by rw [h]; rfl
    simp [main, hc]
  · intro h1 h2
    obtain ⟨p, hp⟩ := Option.isSome_iff_exists.mp h2
    simp [main, h1, hp]
  · intro h1 h2
    refine ⟨?_, ?_, ?_⟩
    · intro e he
      simp [main, h1, h2, he]
    · intro hd e he
      simp [main, h1, h2, hd, he]
    · intro hd p hp
      simp [main, h1, h2, hd, hp]

/-- Witness for C4 at three concrete worlds: probe hit, cache hit, and a
fully successful fresh install. -/
theorem spec_C4_stage_order_witness :
    (main ⟨.exited 0, some [], .response 200, true, true, .ok [],
        .ok ()⟩).stages = [Stage.availabilityCheck]
    ∧ (main ⟨.spawnFailed, some [Entry.dir "bin" [Entry.file "ffmpeg.exe"]],
        .response 200, true, true, .ok [], .ok ()⟩).stages
      = [Stage.availabilityCheck, Stage.localCacheCheck, Stage.guidance]
    ∧ (main ⟨.spawnFailed, some [], .response 200, true, true,
        .ok [Entry.dir "bin" [Entry.file "ffmpeg.exe"]], .ok ()⟩).stages
      = [Stage.availabilityCheck, Stage.localCacheCheck, Stage.confirmation,
          Stage.download, Stage.extractSearch, Stage.guidance] :=
  ⟨(spec_C4_stage_order ⟨.exited 0, some [], .response 200, true, true,
      .ok [], .ok ()⟩).1 rfl,
    (spec_C4_stage_order ⟨.spawnFailed,
        some [Entry.dir "bin" [Entry.file "ffmpeg.exe"]], .response 200, true,
        true, .ok [], .ok ()⟩).2.1 rfl
      (by simp [cacheProbe, existsSyncPath, entryName]),
    ((spec_C4_stage_order ⟨.spawnFailed, some [], .response 200, true, true,
          .ok [Entry.dir "bin" [Entry.file "ffmpeg.exe"]], .ok ()⟩).2.2 rfl
        (by simp [cacheProbe, existsSyncPath])).2.2 rfl
      (pathJoin (pathJoin ffmpegDir "bin") "ffmpeg.exe")
      (by simp [extractFfmpeg, findFfmpegExePath, entryName])⟩

/-- Claim C7: a tree whose only occurrence of the executable name is one
plain file nested three directory levels deep makes the search return
exactly that file's path; a tree with no entry named `ffmpeg.exe` makes it
return `none`, and the extraction stage then raises the fatal
binary-not-found error. -/
theorem spec_C7_search_unique_and_missing :
    (∀ dirPath items target,
        FileOccursD 3 dirPath items target →
        (∀ q, Occurs dirPath items q → q = target) →
        findFfmpegExePath dirPath items = some target)
    ∧ (∀ dirPath items, containsName "ffmpeg.exe" items = false →
        findFfmpegExePath dirPath items = none)
    ∧ (∀ dirExists items, containsName "ffmpeg.exe" items = false →
        (extractFfmpeg dirExists (.ok items) (.ok ())).fst
          = .error notFoundMsg) := by
  refine ⟨?_, ?_, ?_⟩
  · intro dirPath items target hocc huniq
    have hm := hasMatch_of_fileOccursD hocc
    have hs : (findFfmpegExePath dirPath items).isSome = true := by
      rw [findFfmpegExePath_isSome_eq_hasMatch]
      exact hm
    obtain ⟨q, hq⟩ := Option.isSome_iff_exists.mp hs
    rw [hq, huniq q (findFfmpegExePath_occurs hq)]
  · intro dirPath items h
    exact findFfmpegExePath_eq_none_of_not_containsName dirPath h
  · intro dirExists items h
    have hn := findFfmpegExePath_eq_none_of_not_containsName ffmpegDir h
    cases dirExists <;> simp [extractFfmpeg, hn]

/-- Witness for C7: a tree whose only entry named `ffmpeg.exe` is a plain
file three directory levels deep, and a tree with no matching entry. -/
theorem spec_C7_search_unique_and_missing_witness :
    findFfmpegExePath "R"
        [Entry.dir "a" [Entry.dir "b" [Entry.dir "c"
          [Entry.file "ffmpeg.exe"]]]]
      = some (pathJoin (pathJoin (pathJoin (pathJoin "R" "a") "b") "c")
          "ffmpeg.exe")
    ∧ findFfmpegExePath "R" [Entry.file "readme.txt"] = none
    ∧ (extractFfmpeg true (.ok [Entry.file "readme.txt"]) (.ok ())).fst
        = .error notFoundMsg := by
  refine ⟨?_, ?_, ?_⟩
  · refine spec_C7_search_unique_and_missing.1 "R" _ _ ?_ ?_
    · exact .deeper (List.mem_singleton.mpr rfl)
        (.deeper (List.mem_singleton.mpr rfl)
          (.deeper (List.mem_singleton.mpr rfl)
            (.here (List.mem_singleton.mpr rfl))))
    · intro q h
      cases h with
      | file_here hm => simp at hm
      | bin_here hm he => simp at hm
      | deeper hm ho =>
          rw [List.mem_singleton] at hm
          injection hm with h1 h2
          subst h1; subst h2
          cases ho with
          | file_here hm2 => simp at hm2
          | bin_here hm2 he2 => simp at hm2
          | deeper hm2 ho2 =>
              rw [List.mem_singleton] at hm2
              injection hm2 with h1 h2
              subst h1; subst h2
              cases ho2 with
              | file_here hm3 => simp at hm3
              | bin_here hm3 he3 => simp at hm3
              | deeper hm3 ho3 =>
                  rw [List.mem_singleton] at hm3
                  injection hm3 with h1 h2
                  subst h1; subst h2
                  cases ho3 with
                  | file_here hm4 => rfl
                  | bin_here hm4 he4 => simp at hm4
                  | deeper hm4 ho4 => simp at hm4
  · exact spec_C7_search_unique_and_missing.2.1 "R" _
      (by simp [containsName])
  · exact spec_C7_search_unique_and_missing.2.2 true _
      (by simp [containsName])

end SetupFfmpeg
